import Mathlib

/-!
# Verification of the Arkham Oracle SDK signing pipeline and HTTP handler

Shallow embedding of the oracle server handler of the built server module
(`handlePriceRequest` and `createOracleHandler`), the legacy
`createNextJsAppRouterHandler` of `src/server.ts`, the canonical 16-byte
message encoding, the Keccak-256 / Ed25519 signing pipeline, and the
`OracleClient.fetchSignedPrice` URL construction of the client module.
-/

namespace Oracle

/-- Little-endian byte list of width `k` for a natural number, low byte first. -/
def natLE : Nat → Nat → List Nat
  | 0, _ => []
  | k + 1, n => n % 256 :: natLE k (n / 256)

/-- Reconstruct a natural number from little-endian bytes. -/
def leToNat : List Nat → Nat
  | [] => 0
  | b :: bs => b + 256 * leToNat bs

/-- Truthiness of a JavaScript string-or-absent value: `null` / `undefined`
and the empty string are falsy. -/
def jsFalsy : Option String → Bool
  | none => true
  | some s => s == ""

/-- JavaScript truthiness of an optional string argument. -/
def jsTruthy (o : Option String) : Bool := !(jsFalsy o)

/-- Options accepted by `createOracleHandler` of the built server module. -/
structure OracleHandlerOptions where
  oraclePrivateKey : List Nat
  trustedClientKeys : Option (List String)
  dataSourceUrl : Option String

/-- The query parameters of an incoming request, as returned by
`searchParams.get` (`none` when the parameter is absent from the URL). -/
structure OracleRequest where
  trustedClientKey : Option String
  token : Option String

/-- Outcome of the upstream `fetch` of the price source: a rejected promise
(network or JSON-parse failure carrying an error message), or a response
with its `ok` flag, `status`, and, for each token id, the numeric `usd`
field of the parsed JSON body when present. -/
inductive FetchResult where
  | thrown (msg : String)
  | success (ok : Bool) (status : Nat) (usdOf : String → Option ℚ)

/-- Observable side effects of one handler run, in program order. -/
inductive Effect where
  | fetchCall (url : String)
  | keyUse
deriving DecidableEq

/-- An HTTP response: status code and JSON body text. -/
structure HttpResponse where
  status : Nat
  body : String
deriving DecidableEq

/-- `JSON.stringify` of an error payload with a single `error` field. -/
def errorBody (msg : String) : String :=
  "\x7b\"error\":\"" ++ msg ++ "\"\x7d"

/-- `JSON.stringify` of the SignedPriceData success payload. -/
def payloadBody (price timestamp signature : String) : String :=
  "\x7b\"price\":\"" ++ price ++ "\",\"timestamp\":\"" ++ timestamp ++
    "\",\"signature\":\"" ++ signature ++ "\"\x7d"

/-- The security-validation step of `handlePriceRequest`: `true` when the
request is rejected with 401. Mirrors the guard
`options.trustedClientKeys && options.trustedClientKeys.length > 0`
followed by the inner test
`!trustedClientKey || !options.trustedClientKeys.includes(trustedClientKey)`. -/
def authDenied (policy : Option (List String)) (cred : Option String) : Bool :=
  match policy with
  | none => false
  | some keys =>
    if keys.length > 0 then
      jsFalsy cred || !(keys.contains (cred.getD ""))
    else false

/-- `Buffer.prototype.writeBigUInt64LE`: 8 little-endian bytes, or `none`
for the RangeError raised outside the unsigned 64-bit range. -/
def writeBigUInt64LE (v : Int) : Option (List Nat) :=
  if 0 ≤ v ∧ v < 2 ^ 64 then some (natLE 8 v.toNat) else none

/-- `Buffer.prototype.writeBigInt64LE`: 8 little-endian two-complement
bytes, or `none` for the RangeError raised outside the signed 64-bit range. -/
def writeBigInt64LE (v : Int) : Option (List Nat) :=
  if -(2 ^ 63) ≤ v ∧ v < 2 ^ 63 then some (natLE 8 (v % 2 ^ 64).toNat) else none

/-- The 16-byte canonical message: the scaled price as an unsigned 64-bit
little-endian integer in bytes 0..7, the timestamp seconds as a signed
64-bit little-endian integer in bytes 8..15. Mirrors the two Buffer writes
of `handlePriceRequest`; `none` when either write raises a RangeError. -/
def encodeMessage (priceU64 : Int) (timestampI64 : Int) : Option (List Nat) :=
  match writeBigUInt64LE priceU64, writeBigInt64LE timestampI64 with
  | some a, some b => some (a ++ b)
  | _, _ => none

/-- `BigInt(Math.round(priceFloat * 1_000_000))`, on the exact rational
value of the fetched price. `Math.round` rounds half toward positive
infinity, which is what `round` on `ℚ` does. -/
def quantize (priceFloat : ℚ) : Int :=
  round (priceFloat * 1000000)

/-- The CoinGecko endpoint used when no `dataSourceUrl` is configured. -/
def coingeckoBase : String := "https://api.coingecko.com/api/v3/simple/price"

/-- The upstream URL: the base is the configured `dataSourceUrl` when that
is truthy — the source's test `if (options.dataSourceUrl)`, under which an
absent or empty-string value falls back to the CoinGecko default —
followed by template-literal concatenation of the raw token, with no
URL-encoding. -/
def priceSourceUrl (dataSourceUrl : Option String) (token : String) : String :=
  (if jsTruthy dataSourceUrl then dataSourceUrl.getD "" else coingeckoBase) ++
    "?ids=" ++ token ++ "&vs_currencies=usd"

/-- Modelled from the spec: the message of the RangeError thrown by a
Buffer write outside the 64-bit range. The exact text is owed to the Node
runtime, which is outside this repository; no claim depends on it. -/
def rangeErrorMessage : String := "The value is out of range"

/-- A parsed JSON value, as produced by `JSON.parse` (the parser itself is
part of the JavaScript runtime, outside this repository). -/
inductive JsValue where
  | num (v : ℚ)
  | str (s : String)
  | arr (elems : List JsValue)
  | obj
  | boolean (b : Bool)
  | nullV

/-- The `typeof b === "number"` test of `parseKey`. -/
def JsValue.isNumber : JsValue → Bool
  | .num _ => true
  | _ => false

/-- JavaScript ToUint8 conversion, applied by the `Uint8Array` constructor
to each array element: truncate toward zero, then reduce modulo 256. -/
def jsToUint8 (q : ℚ) : Nat :=
  ((if 0 ≤ q then ⌊q⌋ else ⌈q⌉) % 256).toNat

/-- `parseKey` of legacy `src/server.ts`: accepts the `JSON.parse` result
of the key string when it is an array of numbers, converting it to a
`Uint8Array`; every other shape, and a parse failure (`none`), throws.
It performs no check on the length of the array. -/
def parseKey (parsed : Option JsValue) : Option (List Nat) :=
  match parsed with
  | some (.arr elems) =>
    if elems.all JsValue.isNumber then
      some (elems.map fun e => match e with | .num q => jsToUint8 q | _ => 0)
    else none
  | _ => none

/-- The options record built by the legacy `createNextJsAppRouterHandler`. -/
structure LegacyOptions where
  oraclePrivateKey : List Nat
  trustedClientKeys : List String
deriving DecidableEq

/-- Legacy `createNextJsAppRouterHandler` of `src/server.ts`: throws
(`none`) when either environment variable is missing, or when the key
string does not parse to a numeric array; otherwise it constructs the
handler options with no check on the key length. `parsedKey` is the
`JSON.parse` result of the key string. -/
def createNextJsAppRouterHandler (envKey : Option String)
    (envTrusted : Option String) (parsedKey : Option JsValue) :
    Option LegacyOptions :=
  if jsFalsy envKey || jsFalsy envTrusted then none
  else
    match parseKey parsedKey with
    | none => none
    | some keyBytes => some ⟨keyBytes, (envTrusted.getD "").splitOn ","⟩

/-- `createOracleHandler` of the built server module: throws unless the
provided key is exactly 64 bytes long, otherwise the returned handler
closes over the given options. (The `!options.oraclePrivateKey` guard of
the source only rejects `null` / `undefined` — a `Uint8Array` object is
always truthy — so with a key value present the length test is the whole
condition.) -/
def createOracleHandler (options : OracleHandlerOptions) :
    Option OracleHandlerOptions :=
  if options.oraclePrivateKey.length ≠ 64 then none else some options

/-- UTF-8 encoding of a Unicode code point. -/
def utf8Bytes (c : Nat) : List Nat :=
  if c < 0x80 then [c]
  else if c < 0x800 then [0xC0 + c / 64, 0x80 + c % 64]
  else if c < 0x10000 then [0xE0 + c / 4096, 0x80 + c / 64 % 64, 0x80 + c % 64]
  else [0xF0 + c / 262144, 0x80 + c / 4096 % 64, 0x80 + c / 64 % 64, 0x80 + c % 64]

/-- Uppercase hexadecimal digit, for percent escapes. -/
def hexDigitUpper (n : Nat) : Char :=
  "0123456789ABCDEF".toList.getD n '0'

/-- Whether a byte is serialized literally by `URLSearchParams.toString`,
per application/x-www-form-urlencoded. -/
def urlencodedLiteral (b : Nat) : Bool :=
  (48 ≤ b && b ≤ 57) || (65 ≤ b && b ≤ 90) || (97 ≤ b && b ≤ 122) ||
    b == 42 || b == 45 || b == 46 || b == 95

/-- Percent-encode one byte per application/x-www-form-urlencoded. -/
def urlencodeByte (b : Nat) : List Char :=
  if urlencodedLiteral b then [Char.ofNat b]
  else if b == 32 then ['+']
  else ['%', hexDigitUpper (b / 16), hexDigitUpper (b % 16)]

/-- `URLSearchParams` serialization of one name or value. -/
def urlencode (s : String) : String :=
  String.mk (((s.toList.map fun ch => utf8Bytes ch.toNat).flatten).map urlencodeByte).flatten

/-- `params.toString()` for a list of name-value pairs. -/
def urlencodeParams (params : List (String × String)) : String :=
  String.intercalate "&" (params.map fun p => urlencode p.1 ++ "=" ++ urlencode p.2)

/-- The parameter list built by `OracleClient.fetchSignedPrice` of the
built client module: a `URLSearchParams` seeded with the `token` entry,
plus a `trustedClientKey` entry appended only when `trustedKey` is truthy. -/
def fetchSignedPriceParams (token : String) (trustedKey : Option String) :
    List (String × String) :=
  let params := [("token", token)]
  if jsTruthy trustedKey then
    params ++ [("trustedClientKey", trustedKey.getD "")]
  else params

/-- The URL fetched by `OracleClient.fetchSignedPrice`. -/
def fetchSignedPriceUrl (baseUrl token : String) (trustedKey : Option String) :
    String :=
  baseUrl ++ "?" ++ urlencodeParams (fetchSignedPriceParams token trustedKey)

/-! ## SHA-512

Modelled from the spec: the Ed25519 scheme of section 4.6 internally uses
SHA-512 (RFC 8032); the implementation lives in the external
`@noble/ed25519` dependency, outside this repository. -/

/-- 64-bit word mask. -/
def w64 : Nat := 2 ^ 64

/-- Addition modulo `2 ^ 64`. -/
def add64 (a b : Nat) : Nat := (a + b) % w64

/-- Right rotation of a 64-bit word. -/
def rotr64 (x n : Nat) : Nat := x / 2 ^ n + x % 2 ^ n * 2 ^ (64 - n)

/-- Bitwise complement of a 64-bit word. -/
def not64 (x : Nat) : Nat := Nat.xor x (w64 - 1)

/-- SHA-512 round constants (FIPS 180-4, in decimal). -/
def shaK : List Nat :=
  [4794697086780616226, 8158064640168781261, 13096744586834688815,
   16840607885511220156, 4131703408338449720, 6480981068601479193,
   10538285296894168987, 12329834152419229976, 15566598209576043074,
   1334009975649890238, 2608012711638119052, 6128411473006802146,
   8268148722764581231, 9286055187155687089, 11230858885718282805,
   13951009754708518548, 16472876342353939154, 17275323862435702243,
   1135362057144423861, 2597628984639134821, 3308224258029322869,
   5365058923640841347, 6679025012923562964, 8573033837759648693,
   10970295158949994411, 12119686244451234320, 12683024718118986047,
   13788192230050041572, 14330467153632333762, 15395433587784984357,
   489312712824947311, 1452737877330783856, 2861767655752347644,
   3322285676063803686, 5560940570517711597, 5996557281743188959,
   7280758554555802590, 8532644243296465576, 9350256976987008742,
   10552545826968843579, 11727347734174303076, 12113106623233404929,
   14000437183269869457, 14369950271660146224, 15101387698204529176,
   15463397548674623760, 17586052441742319658, 1182934255886127544,
   1847814050463011016, 2177327727835720531, 2830643537854262169,
   3796741975233480872, 4115178125766777443, 5681478168544905931,
   6601373596472566643, 7507060721942968483, 8399075790359081724,
   8693463985226723168, 9568029438360202098, 10144078919501101548,
   10430055236837252648, 11840083180663258601, 13761210420658862357,
   14299343276471374635, 14566680578165727644, 15097957966210449927,
   16922976911328602910, 17689382322260857208, 500013540394364858,
   748580250866718886, 1242879168328830382, 1977374033974150939,
   2944078676154940804, 3659926193048069267, 4368137639120453308,
   4836135668995329356, 5532061633213252278, 6448918945643986474,
   6902733635092675308, 7801388544844847127]

/-- SHA-512 initial hash value (FIPS 180-4, in decimal). -/
def shaH0 : List Nat :=
  [7640891576956012808, 13503953896175478587,
   4354685564936845355, 11912009170470909681,
   5840696475078001361, 11170449401992604703,
   2270897969802886507, 6620516959819538809]

/-- Big-endian 64-bit word from 8 bytes. -/
def beWord (bytes : List Nat) : Nat := bytes.foldl (fun acc b => acc * 256 + b) 0

/-- Split a byte list into chunks of size `sz`, with explicit fuel. -/
def chunkBytes (sz : Nat) : Nat → List Nat → List (List Nat)
  | 0, _ => []
  | fuel + 1, l => if l.length == 0 then [] else l.take sz :: chunkBytes sz fuel (l.drop sz)

/-- SHA-512 message padding: 0x80, zeros, 128-bit big-endian bit length. -/
def shaPad (msg : List Nat) : List Nat :=
  let l := msg.length
  let zeros := (128 - (l + 17) % 128) % 128
  msg ++ 0x80 :: List.replicate zeros 0 ++ (natLE 16 (l * 8)).reverse

/-- SHA-512 small sigma 0. -/
def ssig0 (x : Nat) : Nat := Nat.xor (rotr64 x 1) (Nat.xor (rotr64 x 8) (x / 2 ^ 7))

/-- SHA-512 small sigma 1. -/
def ssig1 (x : Nat) : Nat := Nat.xor (rotr64 x 19) (Nat.xor (rotr64 x 61) (x / 2 ^ 6))

/-- SHA-512 big sigma 0. -/
def bsig0 (x : Nat) : Nat := Nat.xor (rotr64 x 28) (Nat.xor (rotr64 x 34) (rotr64 x 39))

/-- SHA-512 big sigma 1. -/
def bsig1 (x : Nat) : Nat := Nat.xor (rotr64 x 14) (Nat.xor (rotr64 x 18) (rotr64 x 41))

/-- Extend the (reversed) message schedule by `n` further words. -/
def extendW : Nat → List Nat → List Nat
  | 0, ws => ws
  | n + 1, ws =>
    extendW n ((ssig1 (ws.getD 1 0) + ws.getD 6 0 + ssig0 (ws.getD 14 0) + ws.getD 15 0) % w64 :: ws)

/-- One SHA-512 compression round on the 8-word working state. -/
def shaRound (st : List Nat) (kw : Nat × Nat) : List Nat :=
  let a := st.getD 0 0; let b := st.getD 1 0; let c := st.getD 2 0; let d := st.getD 3 0
  let e := st.getD 4 0; let f := st.getD 5 0; let g := st.getD 6 0; let h := st.getD 7 0
  let ch := Nat.xor (Nat.land e f) (Nat.land (not64 e) g)
  let maj := Nat.xor (Nat.land a b) (Nat.xor (Nat.land a c) (Nat.land b c))
  let t1 := (h + bsig1 e + ch + kw.1 + kw.2) % w64
  let t2 := (bsig0 a + maj) % w64
  [(t1 + t2) % w64, a, b, c, (d + t1) % w64, e, f, g]

/-- Process one 128-byte block into the 8-word hash state. -/
def shaBlock (hs : List Nat) (block : List Nat) : List Nat :=
  let w0 := (List.range 16).map fun j => beWord ((block.drop (8 * j)).take 8)
  let w := (extendW 64 w0.reverse).reverse
  let fin := (shaK.zip w).foldl shaRound hs
  (List.range 8).map fun i => add64 (hs.getD i 0) (fin.getD i 0)

/-- SHA-512 of a byte list. -/
def sha512 (msg : List Nat) : List Nat :=
  let padded := shaPad msg
  let hs := (chunkBytes 128 padded.length padded).foldl shaBlock shaH0
  (hs.map fun wrd => (natLE 8 wrd).reverse).flatten

/-! ## Keccak-256

Modelled from the spec: section 4.5 fixes the hash to Keccak-256 (the
original Keccak padding, not the SHA-3 variant); the implementation lives
in the external `js-sha3` dependency, outside this repository. -/

/-- Left rotation of a 64-bit word. -/
def rotl64 (x n : Nat) : Nat := x % 2 ^ (64 - n) * 2 ^ n + x / 2 ^ (64 - n)

/-- Keccak round constants (in decimal). -/
def keccakRC : List Nat :=
  [1, 32898,
   9223372036854808714, 9223372039002292224,
   32907, 2147483649,
   9223372039002292353, 9223372036854808585,
   138, 136,
   2147516425, 2147483658,
   2147516555, 9223372036854775947,
   9223372036854808713, 9223372036854808579,
   9223372036854808578, 9223372036854775936,
   32778, 9223372039002259466,
   9223372039002292353, 9223372036854808704,
   2147483649, 9223372039002292232]

/-- Keccak rotation offsets, indexed by lane `x + 5 * y`, one row of the
state per list. -/
def keccakRot : List Nat :=
  [0, 1, 62, 28, 27] ++ [36, 44, 6, 55, 20] ++ [3, 10, 43, 25, 39] ++
    [41, 45, 15, 21, 8] ++ [18, 2, 61, 56, 14]

/-- Keccak theta step. -/
def keccakTheta (a : List Nat) : List Nat :=
  let c := fun x => Nat.xor (a.getD x 0) (Nat.xor (a.getD (x + 5) 0)
    (Nat.xor (a.getD (x + 10) 0) (Nat.xor (a.getD (x + 15) 0) (a.getD (x + 20) 0))))
  let dv := fun x => Nat.xor (c ((x + 4) % 5)) (rotl64 (c ((x + 1) % 5)) 1)
  (List.range 25).map fun i => Nat.xor (a.getD i 0) (dv (i % 5))

/-- Keccak rho and pi steps combined. -/
def keccakRhoPi (a : List Nat) : List Nat :=
  (List.range 25).foldl
    (fun b i =>
      let x := i % 5
      let y := i / 5
      b.set (y + 5 * ((2 * x + 3 * y) % 5)) (rotl64 (a.getD i 0) (keccakRot.getD i 0)))
    (List.replicate 25 0)

/-- Keccak chi step. -/
def keccakChi (b : List Nat) : List Nat :=
  (List.range 25).map fun i =>
    let x := i % 5
    let y := i / 5
    Nat.xor (b.getD i 0)
      (Nat.land (not64 (b.getD ((x + 1) % 5 + 5 * y) 0)) (b.getD ((x + 2) % 5 + 5 * y) 0))

/-- One Keccak-f[1600] round. -/
def keccakRound (a : List Nat) (rc : Nat) : List Nat :=
  let b := keccakChi (keccakRhoPi (keccakTheta a))
  b.set 0 (Nat.xor (b.getD 0 0) rc)

/-- The Keccak-f[1600] permutation: 24 rounds. -/
def keccakF (a : List Nat) : List Nat := keccakRC.foldl keccakRound a

/-- Multi-rate padding of the original Keccak (domain byte 0x01). -/
def keccakPad (msg : List Nat) : List Nat :=
  let padlen := 136 - msg.length % 136
  if padlen == 1 then msg ++ [0x81]
  else msg ++ 0x01 :: List.replicate (padlen - 2) 0 ++ [0x80]

/-- Absorb one 136-byte block into the 25-lane state. -/
def keccakAbsorb (st : List Nat) (block : List Nat) : List Nat :=
  keccakF ((List.range 25).map fun i =>
    if i < 17 then Nat.xor (st.getD i 0) (leToNat ((block.drop (8 * i)).take 8))
    else st.getD i 0)

/-- Keccak-256 of a byte list: absorb all padded blocks, squeeze 32 bytes. -/
def keccak256 (msg : List Nat) : List Nat :=
  let padded := keccakPad msg
  let fin := (chunkBytes 136 padded.length padded).foldl keccakAbsorb (List.replicate 25 0)
  natLE 8 (fin.getD 0 0) ++ natLE 8 (fin.getD 1 0) ++ natLE 8 (fin.getD 2 0) ++
    natLE 8 (fin.getD 3 0)

/-! ## Ed25519

Modelled from the spec: section 4.6 fixes the signing scheme to Ed25519
over the digest, deterministic per RFC 8032; the implementation lives in
the external `@noble/ed25519` dependency, outside this repository. -/

/-- The field prime of Curve25519. -/
def edP : Nat := 2 ^ 255 - 19

/-- The group order of the Ed25519 base point. -/
def edL : Nat := 2 ^ 252 + 27742317777372353535851937790883648493

/-- The twisted Edwards curve constant d. -/
def edD : Nat :=
  37095705934669439343138083508754565189542113879843219016388785533085940283555

/-- Modular exponentiation with explicit fuel on the exponent bits. -/
def powModAux : Nat → Nat → Nat → Nat → Nat
  | 0, _, _, m => 1 % m
  | fuel + 1, b, e, m =>
    if e == 0 then 1 % m
    else
      let r := powModAux fuel (b * b % m) (e / 2) m
      if e % 2 == 1 then r * b % m else r

/-- Modular exponentiation, enough fuel for 300-bit exponents. -/
def powMod (b e m : Nat) : Nat := powModAux 300 b e m

/-- A curve point in extended homogeneous coordinates. -/
structure EdPoint where
  x : Nat
  y : Nat
  z : Nat
  t : Nat
deriving DecidableEq

/-- The Ed25519 base point. -/
def edB : EdPoint :=
  { x := 15112221349535400772501151409588531511454012693041857206046113283949847762202
    y := 46316835694926478169428394003475163141307993866256225615783033603165251855960
    z := 1
    t := 15112221349535400772501151409588531511454012693041857206046113283949847762202 *
      46316835694926478169428394003475163141307993866256225615783033603165251855960 % edP }

/-- The neutral element. -/
def edZero : EdPoint := { x := 0, y := 1, z := 1, t := 0 }

/-- Point addition, RFC 8032 section 5.1.4 (also used for doubling). -/
def edAdd (p q : EdPoint) : EdPoint :=
  let a := (p.y + edP - p.x % edP) % edP * ((q.y + edP - q.x % edP) % edP) % edP
  let b := (p.y + p.x) % edP * ((q.y + q.x) % edP) % edP
  let c := p.t * q.t % edP * (2 * edD % edP) % edP
  let d := 2 * p.z % edP * q.z % edP
  let e := (b + edP - a) % edP
  let f := (d + edP - c) % edP
  let g := (d + c) % edP
  let h := (b + a) % edP
  { x := e * f % edP, y := g * h % edP, z := f * g % edP, t := e * h % edP }

/-- Double-and-add scalar multiplication with explicit fuel. -/
def edMulAux : Nat → Nat → EdPoint → EdPoint → EdPoint
  | 0, _, _, acc => acc
  | fuel + 1, s, pt, acc =>
    if s == 0 then acc
    else edMulAux fuel (s / 2) (edAdd pt pt) (if s % 2 == 1 then edAdd acc pt else acc)

/-- Scalar multiplication, enough fuel for 260-bit scalars. -/
def edMul (s : Nat) (pt : EdPoint) : EdPoint := edMulAux 260 s pt edZero

/-- Point compression: 32 little-endian bytes of y with the parity of x in
the top bit of the final byte. -/
def edCompress (pt : EdPoint) : List Nat :=
  let zinv := powMod pt.z (edP - 2) edP
  let x := pt.x * zinv % edP
  let y := pt.y * zinv % edP
  natLE 32 (y + 2 ^ 255 * (x % 2))

/-- RFC 8032 secret-scalar clamping of the low 32 bytes of SHA-512(seed):
clear bits 0..2 and 255, set bit 254. -/
def clampScalar (h32 : List Nat) : Nat :=
  2 ^ 254 + leToNat h32 / 8 % 2 ^ 251 * 8

/-- Ed25519 signing per RFC 8032: deterministic in (seed, message). -/
def ed25519Sign (seed msg : List Nat) : List Nat :=
  let h := sha512 seed
  let s := clampScalar (h.take 32)
  let prefixBytes := h.drop 32
  let aEnc := edCompress (edMul s edB)
  let r := leToNat (sha512 (prefixBytes ++ msg)) % edL
  let rEnc := edCompress (edMul r edB)
  let k := leToNat (sha512 (rEnc ++ aEnc ++ msg)) % edL
  rEnc ++ natLE 32 ((r + k * s) % edL)

/-- Lowercase hexadecimal digit. -/
def hexDigit (n : Nat) : Char :=
  "0123456789abcdef".toList.getD n '0'

/-- Lowercase hexadecimal encoding of a byte list,
`Buffer.prototype.toString` with encoding hex. -/
def hexEncode (bs : List Nat) : String :=
  String.mk ((bs.map fun b => [hexDigit (b / 16), hexDigit (b % 16)]).flatten)

/-! ## The request handler of the built server module -/

/-- `handlePriceRequest` of the built server module, one request: returns
the HTTP response together with the trace of observable effects (upstream
fetch calls and uses of the private key), in program order. `fetched` is
the outcome the upstream fetch would produce if reached, and `nowSeconds`
is the value of `Math.floor(Date.now() / 1000)` at signing time. -/
def handlePriceRequest (options : OracleHandlerOptions) (req : OracleRequest)
    (fetched : FetchResult) (nowSeconds : Int) : HttpResponse × List Effect :=
  if authDenied options.trustedClientKeys req.trustedClientKey then
    (⟨401, errorBody "Unauthorized"⟩, [])
  else if jsFalsy req.token then
    (⟨400, errorBody "Token parameter is required"⟩, [])
  else
    let token := req.token.getD ""
    let url := priceSourceUrl options.dataSourceUrl token
    match fetched with
    | .thrown msg =>
      (⟨500, errorBody ("Internal Server Error: " ++ msg)⟩, [.fetchCall url])
    | .success ok status usdOf =>
      if !ok then
        (⟨500, errorBody ("Internal Server Error: Data source API failed with status: " ++
          toString status)⟩, [.fetchCall url])
      else
        match usdOf token with
        | none =>
          (⟨500, errorBody ("Internal Server Error: Price for token \x27" ++ token ++
            "\x27 not found in data source response")⟩, [.fetchCall url])
        | some priceFloat =>
          let priceU64 := quantize priceFloat
          match encodeMessage priceU64 nowSeconds with
          | none =>
            (⟨500, errorBody ("Internal Server Error: " ++ rangeErrorMessage)⟩,
              [.fetchCall url])
          | some msgBytes =>
            let signature := ed25519Sign (options.oraclePrivateKey.take 32)
              (keccak256 msgBytes)
            (⟨200, payloadBody (toString priceU64) (toString nowSeconds)
              (hexEncode signature)⟩, [.fetchCall url, .keyUse])

/-! ## Byte-level lemmas -/

theorem natLE_length (k n : Nat) : (natLE k n).length = k := by
  induction k generalizing n with
  | zero => rfl
  | succ j ih => simp [natLE, ih]

theorem natLE_getD (k n i : Nat) (hi : i < k) :
    (natLE k n).getD i 0 = n / 256 ^ i % 256 := by
  induction k generalizing n i with
  | zero => omega
  | succ j ih =>
    cases i with
    | zero => simp [natLE]
    | succ m =>
      have := ih (n / 256) m (by omega)
      simpa [natLE, Nat.div_div_eq_div_mul, Nat.pow_succ, Nat.mul_comm] using this

theorem natLE_lt (k n : Nat) : ∀ b ∈ natLE k n, b < 256 := by
  induction k generalizing n with
  | zero => simp [natLE]
  | succ j ih =>
    intro b hb
    simp only [natLE, List.mem_cons] at hb
    rcases hb with h | h
    · omega
    · exact ih (n / 256) b h

theorem leToNat_natLE (k n : Nat) : leToNat (natLE k n) = n % 256 ^ k := by
  induction k generalizing n with
  | zero => simp [natLE, leToNat, Nat.mod_one]
  | succ j ih =>
    have hsplit : n % (256 * 256 ^ j) = n % 256 + 256 * (n / 256 % 256 ^ j) :=
      Nat.mod_mul
    simp [natLE, leToNat, ih, Nat.pow_succ, Nat.mul_comm, hsplit]

/-- The lowercase hexadecimal alphabet. -/
def lowerHexAlphabet : List Char := "0123456789abcdef".toList

theorem hexDigit_mem (n : Nat) (h : n < 16) : hexDigit n ∈ lowerHexAlphabet := by
  interval_cases n <;> decide

theorem hexEncode_toList_length (bs : List Nat) :
    (hexEncode bs).toList.length = 2 * bs.length := by
  induction bs with
  | nil => rfl
  | cons b rest ih =>
    have hstep : (hexEncode (b :: rest)).toList =
        hexDigit (b / 16) :: hexDigit (b % 16) :: (hexEncode rest).toList := rfl
    rw [hstep, List.length_cons, List.length_cons, ih, List.length_cons]
    ring

theorem hexEncode_length (bs : List Nat) : (hexEncode bs).length = 2 * bs.length := by
  have h : (hexEncode bs).length = (hexEncode bs).toList.length := rfl
  rw [h, hexEncode_toList_length]

theorem hexEncode_lower (bs : List Nat) (hb : ∀ b ∈ bs, b < 256) :
    ∀ c ∈ (hexEncode bs).toList, c ∈ lowerHexAlphabet := by
  intro c hc
  have hc' : c ∈ (bs.map fun b => [hexDigit (b / 16), hexDigit (b % 16)]).flatten := hc
  rcases List.mem_flatten.mp hc' with ⟨l, hl, hcl⟩
  rcases List.mem_map.mp hl with ⟨b, hbmem, rfl⟩
  have hb256 := hb b hbmem
  simp only [List.mem_cons, List.not_mem_nil, or_false] at hcl
  rcases hcl with rfl | rfl
  · exact hexDigit_mem _ (by omega)
  · exact hexDigit_mem _ (by omega)

theorem edCompress_length (pt : EdPoint) : (edCompress pt).length = 32 := by
  simp [edCompress, natLE_length]

theorem ed25519Sign_length (seed msg : List Nat) :
    (ed25519Sign seed msg).length = 64 := by
  simp [ed25519Sign, edCompress_length, natLE_length]

theorem ed25519Sign_bytes_lt (seed msg : List Nat) :
    ∀ b ∈ ed25519Sign seed msg, b < 256 := by
  intro b hb
  simp only [ed25519Sign, edCompress, List.mem_append] at hb
  rcases hb with h | h
  · exact natLE_lt _ _ b h
  · exact natLE_lt _ _ b h

theorem keccak256_length (msg : List Nat) : (keccak256 msg).length = 32 := by
  simp [keccak256, natLE_length]

/-! ## Handler-reduction lemmas -/

theorem writeBigUInt64LE_of_range (v : Int) (h1 : 0 ≤ v) (h2 : v < 2 ^ 64) :
    writeBigUInt64LE v = some (natLE 8 v.toNat) := by
  unfold writeBigUInt64LE
  rw [if_pos ⟨h1, h2⟩]

theorem writeBigInt64LE_of_range (v : Int) (h1 : -(2 ^ 63) ≤ v) (h2 : v < 2 ^ 63) :
    writeBigInt64LE v = some (natLE 8 (v % 2 ^ 64).toNat) := by
  unfold writeBigInt64LE
  rw [if_pos ⟨h1, h2⟩]

theorem encodeMessage_of_range (p t : Int) (hp1 : 0 ≤ p) (hp2 : p < 2 ^ 64)
    (ht1 : -(2 ^ 63) ≤ t) (ht2 : t < 2 ^ 63) :
    encodeMessage p t = some (natLE 8 p.toNat ++ natLE 8 (t % 2 ^ 64).toNat) := by
  unfold encodeMessage
  rw [writeBigUInt64LE_of_range p hp1 hp2, writeBigInt64LE_of_range t ht1 ht2]

theorem encodeMessage_price_out_of_range (p t : Int)
    (h : p < 0 ∨ 2 ^ 64 ≤ p) : encodeMessage p t = none := by
  have hw : writeBigUInt64LE p = none := by
    unfold writeBigUInt64LE
    rw [if_neg (by omega)]
  unfold encodeMessage
  rw [hw]

theorem authDenied_eq_false_iff (policy : Option (List String)) (cred : Option String) :
    authDenied policy cred = false ↔
      policy = none ∨ policy = some [] ∨
        ∃ c, cred = some c ∧ c ≠ "" ∧ c ∈ policy.getD [] := by
  cases policy with
  | none => simp [authDenied]
  | some keys =>
    cases keys with
    | nil => simp [authDenied]
    | cons k ks =>
      cases cred with
      | none => simp [authDenied, jsFalsy]
      | some s =>
        by_cases hs : s = ""
        · subst hs; simp [authDenied, jsFalsy]
        · simp only [authDenied, jsFalsy, List.length_cons, Nat.succ_ne_zero,
            Option.getD_some, if_pos (Nat.succ_pos ks.length)]
          simp [hs]
          tauto

theorem handlePriceRequest_denied (options : OracleHandlerOptions)
    (req : OracleRequest) (fetched : FetchResult) (now : Int)
    (h : authDenied options.trustedClientKeys req.trustedClientKey = true) :
    handlePriceRequest options req fetched now =
      (⟨401, errorBody "Unauthorized"⟩, []) := by
  simp [handlePriceRequest, h]

theorem handlePriceRequest_missing_token (options : OracleHandlerOptions)
    (req : OracleRequest) (fetched : FetchResult) (now : Int)
    (hgate : authDenied options.trustedClientKeys req.trustedClientKey = false)
    (htok : jsFalsy req.token = true) :
    handlePriceRequest options req fetched now =
      (⟨400, errorBody "Token parameter is required"⟩, []) := by
  simp [handlePriceRequest, hgate, htok]

theorem handlePriceRequest_success (options : OracleHandlerOptions)
    (req : OracleRequest) (st : Nat) (usdOf : String → Option ℚ) (now : Int)
    (token : String) (q : ℚ)
    (hgate : authDenied options.trustedClientKeys req.trustedClientKey = false)
    (htok : req.token = some token) (hne : token ≠ "")
    (husd : usdOf token = some q)
    (hq0 : 0 ≤ quantize q) (hq1 : quantize q < 2 ^ 64)
    (hn0 : -(2 ^ 63) ≤ now) (hn1 : now < 2 ^ 63) :
    handlePriceRequest options req (.success true st usdOf) now =
      (⟨200, payloadBody (toString (quantize q)) (toString now)
        (hexEncode (ed25519Sign (options.oraclePrivateKey.take 32)
          (keccak256 (natLE 8 (quantize q).toNat ++ natLE 8 (now % 2 ^ 64).toNat))))⟩,
       [.fetchCall (priceSourceUrl options.dataSourceUrl token), .keyUse]) := by
  have henc : encodeMessage (quantize q) now =
      some (natLE 8 (quantize q).toNat ++ natLE 8 (now % 2 ^ 64).toNat) :=
    encodeMessage_of_range _ _ hq0 hq1 hn0 hn1
  simp [handlePriceRequest, hgate, htok, jsFalsy, hne, husd, henc]

theorem handlePriceRequest_allowed_not_401 (options : OracleHandlerOptions)
    (req : OracleRequest) (fetched : FetchResult) (now : Int)
    (h : authDenied options.trustedClientKeys req.trustedClientKey = false) :
    (handlePriceRequest options req fetched now).1.status ≠ 401 := by
  by_cases ht : jsFalsy req.token = true
  · simp [handlePriceRequest, h, ht]
  · rw [Bool.not_eq_true] at ht
    cases fetched with
    | thrown m => simp [handlePriceRequest, h, ht]
    | success ok st usdOf =>
      cases ok with
      | false => simp [handlePriceRequest, h, ht]
      | true =>
        cases husd : usdOf (req.token.getD "") with
        | none => simp [handlePriceRequest, h, ht, husd]
        | some q =>
          cases henc : encodeMessage (quantize q) now with
          | none => simp [handlePriceRequest, h, ht, husd, henc]
          | some m => simp [handlePriceRequest, h, ht, husd, henc]

/-! ## Claim theorems -/

/-- C1 (amended): the authorization gate of `handlePriceRequest` allows a
request iff the configured policy is absent or empty, or the supplied
`trustedClientKey` query parameter is present, non-empty, and exactly
equals (case-sensitive string equality) one element of the policy; in
every other case the request is denied with a 401 Unauthorized response,
and an allowed request is never answered with 401. -/
theorem C1_gate_characterization (options : OracleHandlerOptions)
    (req : OracleRequest) (fetched : FetchResult) (now : Int) :
    (authDenied options.trustedClientKeys req.trustedClientKey = false ↔
      options.trustedClientKeys = none ∨ options.trustedClientKeys = some [] ∨
        ∃ c, req.trustedClientKey = some c ∧ c ≠ "" ∧
          c ∈ options.trustedClientKeys.getD []) ∧
    (authDenied options.trustedClientKeys req.trustedClientKey = true →
      (handlePriceRequest options req fetched now).1 =
        ⟨401, errorBody "Unauthorized"⟩) ∧
    (authDenied options.trustedClientKeys req.trustedClientKey = false →
      (handlePriceRequest options req fetched now).1.status ≠ 401) :=
  ⟨authDenied_eq_false_iff _ _,
   fun h => by rw [handlePriceRequest_denied options req fetched now h],
   fun h => handlePriceRequest_allowed_not_401 options req fetched now h⟩

/-- C1 counterexample: with the configured policy consisting of the empty
string and the request supplying the credential as the (present) empty
string — which exactly equals an element of the policy — the gate still
denies with 401, because the JavaScript guard `!trustedClientKey` treats
the empty string as absent. The claim as stated predicts Allow here. -/
theorem C1_counterexample :
    ((some "" : Option String) ≠ none ∧ "" ∈ [""]) ∧
    (handlePriceRequest ⟨List.replicate 64 0, some [""], none⟩
      ⟨some "", some "bitcoin"⟩ (.success true 200 fun _ => none) 0).1.status
      = 401 := by
  refine ⟨⟨by simp, by simp⟩, ?_⟩
  rfl

/-- C2 (amended): `createOracleHandler` construction succeeds iff the
provided oracle private key is exactly 64 bytes long (otherwise it
throws), and every handler it successfully constructs holds the given
64-byte key. The legacy `createNextJsAppRouterHandler` of `src/server.ts`
performs no such length check. -/
theorem C2_createOracleHandler_length (options : OracleHandlerOptions) :
    ((createOracleHandler options).isSome ↔
      options.oraclePrivateKey.length = 64) ∧
    (∀ built, createOracleHandler options = some built →
      built = options ∧ built.oraclePrivateKey.length = 64) := by
  constructor
  · by_cases h : options.oraclePrivateKey.length = 64 <;>
      simp [createOracleHandler, h]
  · intro built hb
    by_cases h : options.oraclePrivateKey.length = 64
    · simp [createOracleHandler, h] at hb
      subst hb
      exact ⟨rfl, h⟩
    · simp [createOracleHandler, h] at hb

/-- C2 counterexample: the legacy constructor `createNextJsAppRouterHandler`
accepts a key string parsing to a 3-byte array and constructs a handler
whose key is not 64 bytes long, without throwing — so, taken over every
construction path of the repository, handler construction does not always
fail on a key that is not exactly 64 bytes. -/
theorem C2_counterexample :
    ∃ built, createNextJsAppRouterHandler (some "[1,2,3]") (some "k")
        (some (.arr [.num 1, .num 2, .num 3])) = some built ∧
      built.oraclePrivateKey = [1, 2, 3] ∧
      built.oraclePrivateKey.length ≠ 64 := by
  refine ⟨⟨[1, 2, 3], "k".splitOn ","⟩, ?_, rfl, by simp⟩
  simp [createNextJsAppRouterHandler, jsFalsy, parseKey, JsValue.isNumber,
    jsToUint8]

/-- C3: for every scaled price in the unsigned 64-bit range and timestamp
in the signed 64-bit range, the canonical message encoding succeeds and
returns exactly 16 bytes, bytes 0..7 the price as unsigned 64-bit
little-endian, bytes 8..15 the timestamp as signed (two-complement)
64-bit little-endian; byte 0 is the least-significant byte of the price
field and byte 8 the least-significant byte of the timestamp field. -/
theorem C3_canonical_encoding (p : Nat) (t : Int) (hp : p < 2 ^ 64)
    (ht1 : -(2 ^ 63) ≤ t) (ht2 : t < 2 ^ 63) :
    ∃ m, encodeMessage p t = some m ∧
      m.length = 16 ∧
      (∀ i, i < 8 → m.getD i 0 = p / 256 ^ i % 256) ∧
      (∀ i, i < 8 → m.getD (8 + i) 0 = (t % 2 ^ 64).toNat / 256 ^ i % 256) ∧
      m.getD 0 0 = p % 256 ∧
      m.getD 8 0 = (t % 2 ^ 64).toNat % 256 := by
  have hp' : (0 : Int) ≤ (p : Int) ∧ (p : Int) < 2 ^ 64 := by
    constructor <;> omega
  have henc : encodeMessage p t =
      some (natLE 8 ((p : Int)).toNat ++ natLE 8 (t % 2 ^ 64).toNat) :=
    encodeMessage_of_range _ _ hp'.1 hp'.2 ht1 ht2
  have htn : ((p : Int)).toNat = p := Int.toNat_natCast p
  refine ⟨natLE 8 p ++ natLE 8 (t % 2 ^ 64).toNat, by rw [henc, htn], ?_, ?_, ?_, ?_, ?_⟩
  · simp [natLE_length]
  · intro i hi
    rw [List.getD_eq_getD_get?, List.get?_append (by simp [natLE_length]; omega)]
    rw [← List.getD_eq_getD_get?, natLE_getD 8 p i hi]
  · intro i hi
    rw [List.getD_eq_getD_get?, List.get?_append_right (by simp [natLE_length])]
    simp only [natLE_length]
    rw [show 8 + i - 8 = i from by omega, ← List.getD_eq_getD_get?,
      natLE_getD 8 _ i hi]
  · rw [List.getD_eq_getD_get?, List.get?_append (by simp [natLE_length])]
    rw [← List.getD_eq_getD_get?, natLE_getD 8 p 0 (by omega)]
    simp
  · rw [List.getD_eq_getD_get?, List.get?_append_right (by simp [natLE_length])]
    simp only [natLE_length]
    rw [show 8 - 8 = 0 from rfl, ← List.getD_eq_getD_get?,
      natLE_getD 8 _ 0 (by omega)]
    simp

/-- C3 witness: the encoding at price 1 and timestamp 0. -/
theorem C3_witness :
    (1 < 2 ^ 64 ∧ -(2 ^ 63) ≤ (0 : Int) ∧ (0 : Int) < 2 ^ 63) ∧
    (∃ m, encodeMessage 1 0 = some m ∧
      m.length = 16 ∧
      (∀ i, i < 8 → m.getD i 0 = 1 / 256 ^ i % 256) ∧
      (∀ i, i < 8 → m.getD (8 + i) 0 = ((0 : Int) % 2 ^ 64).toNat / 256 ^ i % 256) ∧
      m.getD 0 0 = 1 % 256 ∧
      m.getD 8 0 = ((0 : Int) % 2 ^ 64).toNat % 256) :=
  ⟨⟨by norm_num, by norm_num, by norm_num⟩,
    C3_canonical_encoding 1 0 (by norm_num) (by norm_num) (by norm_num)⟩

theorem quantize_intCast (n : Int) : quantize ((n : ℚ)) = n * 1000000 := by
  unfold quantize
  rw [show ((n : ℚ) * 1000000) = (((n * 1000000 : Int)) : ℚ) by push_cast; ring,
    round_intCast]

theorem quantize_nonneg (q : ℚ) (hq : 0 ≤ q) : 0 ≤ quantize q := by
  unfold quantize
  rw [round_eq]
  refine Int.le_floor.mpr ?_
  push_cast
  positivity

/-- C4: a request that reaches the signing step produces as its signature
field the lowercase hexadecimal encoding (128 characters) of the 64-byte
Ed25519 signature, under the seed given by the first 32 bytes of the
configured 64-byte key, over the 32-byte Keccak-256 digest of the 16-byte
canonical message — not over the raw message; and the response body
depends only on the scaled price, the timestamp and the key, so any two
runs with the same triple produce bit-identical bodies and signatures. -/
theorem C4_signing_pipeline (options : OracleHandlerOptions)
    (req : OracleRequest) (st : Nat) (usdOf : String → Option ℚ) (now : Int)
    (token : String) (q : ℚ)
    (hkey : options.oraclePrivateKey.length = 64)
    (hgate : authDenied options.trustedClientKeys req.trustedClientKey = false)
    (htok : req.token = some token) (hne : token ≠ "")
    (husd : usdOf token = some q)
    (hq0 : 0 ≤ quantize q) (hq1 : quantize q < 2 ^ 64)
    (hn0 : -(2 ^ 63) ≤ now) (hn1 : now < 2 ^ 63) :
    ∃ msg sig,
      encodeMessage (quantize q) now = some msg ∧
      msg.length = 16 ∧
      (keccak256 msg).length = 32 ∧
      (options.oraclePrivateKey.take 32).length = 32 ∧
      sig = ed25519Sign (options.oraclePrivateKey.take 32) (keccak256 msg) ∧
      sig.length = 64 ∧
      (handlePriceRequest options req (.success true st usdOf) now).1 =
        ⟨200, payloadBody (toString (quantize q)) (toString now)
          (hexEncode sig)⟩ ∧
      (hexEncode sig).length = 128 ∧
      (∀ c ∈ (hexEncode sig).toList, c ∈ lowerHexAlphabet) ∧
      (∀ (req' : OracleRequest) (st' : Nat) (usdOf' : String → Option ℚ)
          (token' : String),
        authDenied options.trustedClientKeys req'.trustedClientKey = false →
        req'.token = some token' → token' ≠ "" → usdOf' token' = some q →
        (handlePriceRequest options req' (.success true st' usdOf') now).1.body =
          (handlePriceRequest options req (.success true st usdOf) now).1.body) := by
  refine ⟨natLE 8 (quantize q).toNat ++ natLE 8 (now % 2 ^ 64).toNat,
    ed25519Sign (options.oraclePrivateKey.take 32)
      (keccak256 (natLE 8 (quantize q).toNat ++ natLE 8 (now % 2 ^ 64).toNat)),
    encodeMessage_of_range _ _ hq0 hq1 hn0 hn1,
    ?_, ?_, ?_, ?_, ?_, ?_, ?_, ?_, ?_⟩
  · simp [natLE_length]
  · exact keccak256_length _
  · simp [List.length_take, hkey]
  · rfl
  · exact ed25519Sign_length _ _
  · rw [handlePriceRequest_success options req st usdOf now token q hgate htok
      hne husd hq0 hq1 hn0 hn1]
  · rw [hexEncode_length, ed25519Sign_length]
  · exact hexEncode_lower _ (ed25519Sign_bytes_lt _ _)
  · intro req' st' usdOf' token' hgate' htok' hne' husd'
    rw [handlePriceRequest_success options req' st' usdOf' now token' q hgate'
        htok' hne' husd' hq0 hq1 hn0 hn1,
      handlePriceRequest_success options req st usdOf now token q hgate htok
        hne husd hq0 hq1 hn0 hn1]

/-- C5: when the scaled price is negative or exceeds the unsigned 64-bit
range, the Buffer write raises a RangeError and the handler answers 500;
the private key is never used, so no signed payload containing a wrapped
price is ever produced. -/
theorem C5_out_of_range_price_500 (options : OracleHandlerOptions)
    (req : OracleRequest) (st : Nat) (usdOf : String → Option ℚ) (now : Int)
    (token : String) (q : ℚ)
    (hgate : authDenied options.trustedClientKeys req.trustedClientKey = false)
    (htok : req.token = some token) (hne : token ≠ "")
    (husd : usdOf token = some q)
    (hrange : quantize q < 0 ∨ 2 ^ 64 ≤ quantize q) :
    (handlePriceRequest options req (.success true st usdOf) now).1 =
      ⟨500, errorBody ("Internal Server Error: " ++ rangeErrorMessage)⟩ ∧
    (handlePriceRequest options req (.success true st usdOf) now).1.status = 500 ∧
    Effect.keyUse ∉ (handlePriceRequest options req (.success true st usdOf) now).2 := by
  have henc : encodeMessage (quantize q) now = none :=
    encodeMessage_price_out_of_range _ _ hrange
  refine ⟨?_, ?_, ?_⟩ <;>
    simp [handlePriceRequest, hgate, htok, jsFalsy, hne, husd, henc]

/-- C6: for every nonnegative price whose quantization fits the unsigned
64-bit range and every in-range timestamp, decoding the first 8 bytes of
the canonical message as an unsigned 64-bit little-endian integer
recovers the quantized price exactly. -/
theorem C6_quantize_roundtrip (q : ℚ) (t : Int) (hq : 0 ≤ q)
    (hub : quantize q < 2 ^ 64) (ht1 : -(2 ^ 63) ≤ t) (ht2 : t < 2 ^ 63) :
    ∃ m, encodeMessage (quantize q) t = some m ∧
      ((leToNat (m.take 8) : Int)) = quantize q := by
  have h0 := quantize_nonneg q hq
  refine ⟨_, encodeMessage_of_range _ _ h0 hub ht1 ht2, ?_⟩
  have hlen : (natLE 8 (quantize q).toNat).length = 8 := natLE_length 8 _
  rw [List.take_left' hlen, leToNat_natLE]
  have hlt : (quantize q).toNat < 256 ^ 8 := by
    have : ((quantize q).toNat : Int) = quantize q := Int.toNat_of_nonneg h0
    omega
  rw [Nat.mod_eq_of_lt hlt]
  exact Int.toNat_of_nonneg h0

theorem handlePriceRequest_price_not_found (options : OracleHandlerOptions)
    (req : OracleRequest) (st : Nat) (usdOf : String → Option ℚ) (now : Int)
    (token : String)
    (hgate : authDenied options.trustedClientKeys req.trustedClientKey = false)
    (htok : req.token = some token) (hne : token ≠ "")
    (husd : usdOf token = none) :
    handlePriceRequest options req (.success true st usdOf) now =
      (⟨500, errorBody ("Internal Server Error: Price for token \x27" ++ token ++
        "\x27 not found in data source response")⟩,
       [.fetchCall (priceSourceUrl options.dataSourceUrl token)]) := by
  simp [handlePriceRequest, hgate, htok, jsFalsy, hne, husd]

/-- C7: a request the authorization gate denies is answered 401 with an
empty effect trace: no upstream fetch is attempted and the private key is
never read or used. -/
theorem C7_denied_no_side_effects (options : OracleHandlerOptions)
    (req : OracleRequest) (fetched : FetchResult) (now : Int)
    (h : authDenied options.trustedClientKeys req.trustedClientKey = true) :
    handlePriceRequest options req fetched now =
      (⟨401, errorBody "Unauthorized"⟩, []) ∧
    (∀ u, Effect.fetchCall u ∉ (handlePriceRequest options req fetched now).2) ∧
    Effect.keyUse ∉ (handlePriceRequest options req fetched now).2 := by
  have hrun := handlePriceRequest_denied options req fetched now h
  exact ⟨hrun, fun u => by rw [hrun]; simp, by rw [hrun]; simp⟩

/-- C8: past the gate, an absent or empty token parameter is answered 400
with exactly the JSON body for a required token parameter; the gate is
checked first (a denied request gets 401 even with the token missing);
and an unrecognized token instead produces a 500 response with a
different status. -/
theorem C8_missing_token (options : OracleHandlerOptions)
    (req : OracleRequest) (fetched : FetchResult) (now : Int)
    (hgate : authDenied options.trustedClientKeys req.trustedClientKey = false)
    (htok : jsFalsy req.token = true) :
    (handlePriceRequest options req fetched now).1 =
      ⟨400, "\x7b\"error\":\"Token parameter is required\"\x7d"⟩ ∧
    (∀ (req' : OracleRequest),
      authDenied options.trustedClientKeys req'.trustedClientKey = true →
      (handlePriceRequest options req' fetched now).1.status = 401) ∧
    (∀ (req₂ : OracleRequest) (st : Nat) (usdOf : String → Option ℚ)
        (token : String),
      authDenied options.trustedClientKeys req₂.trustedClientKey = false →
      req₂.token = some token → token ≠ "" → usdOf token = none →
      (handlePriceRequest options req₂ (.success true st usdOf) now).1.status = 500 ∧
      (handlePriceRequest options req₂ (.success true st usdOf) now).1.status ≠
        (handlePriceRequest options req fetched now).1.status) := by
  have hrun := handlePriceRequest_missing_token options req fetched now hgate htok
  refine ⟨by rw [hrun]; rfl, ?_, ?_⟩
  · intro req' hdeny
    rw [handlePriceRequest_denied options req' fetched now hdeny]
  · intro req₂ st usdOf token hgate₂ htok₂ hne₂ husd₂
    have h₂ := handlePriceRequest_price_not_found options req₂ st usdOf now token
      hgate₂ htok₂ hne₂ husd₂
    rw [h₂, hrun]
    exact ⟨rfl, by simp⟩

theorem handlePriceRequest_fetch_head (options : OracleHandlerOptions)
    (req : OracleRequest) (fetched : FetchResult) (now : Int) (token : String)
    (hgate : authDenied options.trustedClientKeys req.trustedClientKey = false)
    (htok : req.token = some token) (hne : token ≠ "") :
    (handlePriceRequest options req fetched now).2.head? =
      some (.fetchCall (priceSourceUrl options.dataSourceUrl token)) := by
  cases fetched with
  | thrown m => simp [handlePriceRequest, hgate, htok, jsFalsy, hne]
  | success ok st usdOf =>
    cases ok with
    | false => simp [handlePriceRequest, hgate, htok, jsFalsy, hne]
    | true =>
      cases husd : usdOf token with
      | none =>
        simp [handlePriceRequest, hgate, htok, jsFalsy, hne, husd]
      | some q =>
        cases henc : encodeMessage (quantize q) now with
        | none =>
          simp [handlePriceRequest, hgate, htok, jsFalsy, hne, husd, henc]
        | some m =>
          simp [handlePriceRequest, hgate, htok, jsFalsy, hne, husd, henc]

/-- C9: past the gate, with a non-empty token, the URL handed to the
upstream fetch is the verbatim concatenation of the base URL, the literal
query prelude, the raw token, and the literal currency suffix — no
URL-encoding of the token; the base URL is the configured `dataSourceUrl`
when that is truthy (present and non-empty, the source's test
`if (options.dataSourceUrl)`), and the CoinGecko default when it is
absent or empty. -/
theorem C9_upstream_url_verbatim (options : OracleHandlerOptions)
    (req : OracleRequest) (fetched : FetchResult) (now : Int) (token : String)
    (hgate : authDenied options.trustedClientKeys req.trustedClientKey = false)
    (htok : req.token = some token) (hne : token ≠ "") :
    ((handlePriceRequest options req fetched now).2.head? =
      some (.fetchCall ((if jsTruthy options.dataSourceUrl then
          options.dataSourceUrl.getD "" else coingeckoBase) ++ "?ids=" ++
        token ++ "&vs_currencies=usd"))) ∧
    (∀ u, options.dataSourceUrl = some u → u ≠ "" →
      (handlePriceRequest options req fetched now).2.head? =
        some (.fetchCall (u ++ "?ids=" ++ token ++ "&vs_currencies=usd"))) ∧
    (options.dataSourceUrl = none ∨ options.dataSourceUrl = some "" →
      (handlePriceRequest options req fetched now).2.head? =
        some (.fetchCall (coingeckoBase ++ "?ids=" ++ token ++
          "&vs_currencies=usd"))) := by
  have hhead := handlePriceRequest_fetch_head options req fetched now token
    hgate htok hne
  refine ⟨hhead, ?_, ?_⟩
  · intro u hu hune
    rw [hu] at hhead
    rw [hhead]
    simp [priceSourceUrl, jsTruthy, jsFalsy, hune]
  · intro h
    rcases h with h | h <;> rw [h] at hhead <;> rw [hhead] <;>
      simp [priceSourceUrl, jsTruthy, jsFalsy]

/-- C10: `OracleClient.fetchSignedPrice` of the built client module sends
only the token parameter when `trustedKey` is omitted or falsy — no
`trustedClientKey` parameter appears at all — and appends the
`trustedClientKey` parameter exactly when `trustedKey` is truthy. -/
theorem C10_client_trusted_key_param (token : String) (trustedKey : Option String) :
    (jsTruthy trustedKey = false →
      fetchSignedPriceParams token trustedKey = [("token", token)] ∧
      (∀ v, ("trustedClientKey", v) ∉ fetchSignedPriceParams token trustedKey) ∧
      ∀ baseUrl, fetchSignedPriceUrl baseUrl token trustedKey =
        baseUrl ++ "?" ++ urlencodeParams [("token", token)]) ∧
    (jsTruthy trustedKey = true →
      fetchSignedPriceParams token trustedKey =
        [("token", token), ("trustedClientKey", trustedKey.getD "")] ∧
      ∀ baseUrl, fetchSignedPriceUrl baseUrl token trustedKey =
        baseUrl ++ "?" ++
          urlencodeParams [("token", token),
            ("trustedClientKey", trustedKey.getD "")]) := by
  constructor
  · intro h
    have hp : fetchSignedPriceParams token trustedKey = [("token", token)] := by
      simp [fetchSignedPriceParams, h]
    refine ⟨hp, ?_, ?_⟩
    · intro v hv
      rw [hp, List.mem_singleton] at hv
      have hfst : "trustedClientKey" = "token" := congrArg Prod.fst hv
      exact absurd hfst (by decide)
    · intro baseUrl
      rw [fetchSignedPriceUrl, hp]
  · intro h
    have hp : fetchSignedPriceParams token trustedKey =
        [("token", token), ("trustedClientKey", trustedKey.getD "")] := by
      simp [fetchSignedPriceParams, h]
    refine ⟨hp, ?_⟩
    intro baseUrl
    rw [fetchSignedPriceUrl, hp]

/-! ## Witnesses -/

/-- C1 witness: the gate characterization at a two-element policy with a
matching supplied credential. -/
theorem C1_witness :
    (authDenied (some ["k1", "k2"]) (some "k1") = false ↔
      (some ["k1", "k2"] : Option (List String)) = none ∨
      (some ["k1", "k2"] : Option (List String)) = some [] ∨
        ∃ c, (some "k1" : Option String) = some c ∧ c ≠ "" ∧
          c ∈ ["k1", "k2"]) ∧
    (authDenied (some ["k1", "k2"]) (some "k1") = true →
      (handlePriceRequest ⟨List.replicate 64 0, some ["k1", "k2"], none⟩
        ⟨some "k1", some "solana"⟩ (.thrown "x") 0).1 =
        ⟨401, errorBody "Unauthorized"⟩) ∧
    (authDenied (some ["k1", "k2"]) (some "k1") = false →
      (handlePriceRequest ⟨List.replicate 64 0, some ["k1", "k2"], none⟩
        ⟨some "k1", some "solana"⟩ (.thrown "x") 0).1.status ≠ 401) :=
  C1_gate_characterization ⟨List.replicate 64 0, some ["k1", "k2"], none⟩
    ⟨some "k1", some "solana"⟩ (.thrown "x") 0

/-- C2 witness: the length characterization at an all-zero 64-byte key. -/
theorem C2_witness :
    ((createOracleHandler ⟨List.replicate 64 0, none, none⟩).isSome ↔
      (List.replicate 64 (0 : Nat)).length = 64) ∧
    (∀ built, createOracleHandler ⟨List.replicate 64 0, none, none⟩ = some built →
      built = ⟨List.replicate 64 0, none, none⟩ ∧
      built.oraclePrivateKey.length = 64) :=
  C2_createOracleHandler_length ⟨List.replicate 64 0, none, none⟩

/-- C4 witness: the signing pipeline on an authorized request for solana
priced at 2 USD, at timestamp 0, under the all-zero 64-byte key. -/
theorem C4_witness :
    ((List.replicate 64 (0 : Nat)).length = 64 ∧
      0 ≤ quantize ((2 : Int) : ℚ) ∧ quantize ((2 : Int) : ℚ) < 2 ^ 64) ∧
    (∃ msg sig,
      encodeMessage (quantize ((2 : Int) : ℚ)) 0 = some msg ∧
      msg.length = 16 ∧
      (keccak256 msg).length = 32 ∧
      ((List.replicate 64 (0 : Nat)).take 32).length = 32 ∧
      sig = ed25519Sign ((List.replicate 64 (0 : Nat)).take 32) (keccak256 msg) ∧
      sig.length = 64 ∧
      (handlePriceRequest ⟨List.replicate 64 0, none, none⟩ ⟨none, some "solana"⟩
        (.success true 200 fun t => if t = "solana" then some ((2 : Int) : ℚ) else none)
        0).1 =
        ⟨200, payloadBody (toString (quantize ((2 : Int) : ℚ))) (toString (0 : Int))
          (hexEncode sig)⟩ ∧
      (hexEncode sig).length = 128 ∧
      (∀ c ∈ (hexEncode sig).toList, c ∈ lowerHexAlphabet) ∧
      (∀ (req' : OracleRequest) (st' : Nat) (usdOf' : String → Option ℚ)
          (token' : String),
        authDenied none req'.trustedClientKey = false →
        req'.token = some token' → token' ≠ "" →
        usdOf' token' = some ((2 : Int) : ℚ) →
        (handlePriceRequest ⟨List.replicate 64 0, none, none⟩ req'
          (.success true st' usdOf') 0).1.body =
          (handlePriceRequest ⟨List.replicate 64 0, none, none⟩
            ⟨none, some "solana"⟩
            (.success true 200 fun t => if t = "solana" then some ((2 : Int) : ℚ) else none)
            0).1.body)) :=
  ⟨⟨by simp, by rw [quantize_intCast]; norm_num, by rw [quantize_intCast]; norm_num⟩,
    C4_signing_pipeline ⟨List.replicate 64 0, none, none⟩ ⟨none, some "solana"⟩
      200 (fun t => if t = "solana" then some ((2 : Int) : ℚ) else none) 0
      "solana" ((2 : Int) : ℚ) (by simp) rfl rfl (by decide) (by simp)
      (by rw [quantize_intCast]; norm_num) (by rw [quantize_intCast]; norm_num)
      (by norm_num) (by norm_num)⟩

/-- C5 witness: a negative fetched price (-1 USD) is answered 500 and the
key is never used. -/
theorem C5_witness :
    (quantize ((-1 : Int) : ℚ) < 0 ∨ 2 ^ 64 ≤ quantize ((-1 : Int) : ℚ)) ∧
    (handlePriceRequest ⟨List.replicate 64 0, none, none⟩ ⟨none, some "solana"⟩
      (.success true 200 fun t => if t = "solana" then some ((-1 : Int) : ℚ) else none)
      0).1 =
      ⟨500, errorBody ("Internal Server Error: " ++ rangeErrorMessage)⟩ ∧
    (handlePriceRequest ⟨List.replicate 64 0, none, none⟩ ⟨none, some "solana"⟩
      (.success true 200 fun t => if t = "solana" then some ((-1 : Int) : ℚ) else none)
      0).1.status = 500 ∧
    Effect.keyUse ∉
      (handlePriceRequest ⟨List.replicate 64 0, none, none⟩ ⟨none, some "solana"⟩
        (.success true 200 fun t => if t = "solana" then some ((-1 : Int) : ℚ) else none)
        0).2 :=
  ⟨Or.inl (by rw [quantize_intCast]; norm_num),
    C5_out_of_range_price_500 ⟨List.replicate 64 0, none, none⟩
      ⟨none, some "solana"⟩ 200
      (fun t => if t = "solana" then some ((-1 : Int) : ℚ) else none) 0
      "solana" ((-1 : Int) : ℚ) rfl rfl (by decide) (by simp)
      (Or.inl (by rw [quantize_intCast]; norm_num))⟩

/-- C6 witness: the quantized-price roundtrip at price 2 USD and
timestamp 5. -/
theorem C6_witness :
    (0 ≤ ((2 : Int) : ℚ) ∧ quantize ((2 : Int) : ℚ) < 2 ^ 64) ∧
    (∃ m, encodeMessage (quantize ((2 : Int) : ℚ)) 5 = some m ∧
      ((leToNat (m.take 8) : Int)) = quantize ((2 : Int) : ℚ)) :=
  ⟨⟨by norm_num, by rw [quantize_intCast]; norm_num⟩,
    C6_quantize_roundtrip ((2 : Int) : ℚ) 5 (by norm_num)
      (by rw [quantize_intCast]; norm_num) (by norm_num) (by norm_num)⟩

/-- C7 witness: a request denied under the one-element policy produces the
401 response with an empty effect trace. -/
theorem C7_witness :
    authDenied (some ["k"]) none = true ∧
    (handlePriceRequest ⟨List.replicate 64 0, some ["k"], none⟩
      ⟨none, some "solana"⟩ (.thrown "x") 0 =
      (⟨401, errorBody "Unauthorized"⟩, []) ∧
    (∀ u, Effect.fetchCall u ∉
      (handlePriceRequest ⟨List.replicate 64 0, some ["k"], none⟩
        ⟨none, some "solana"⟩ (.thrown "x") 0).2) ∧
    Effect.keyUse ∉
      (handlePriceRequest ⟨List.replicate 64 0, some ["k"], none⟩
        ⟨none, some "solana"⟩ (.thrown "x") 0).2) :=
  ⟨rfl, C7_denied_no_side_effects ⟨List.replicate 64 0, some ["k"], none⟩
    ⟨none, some "solana"⟩ (.thrown "x") 0 rfl⟩

/-- C8 witness: a public-policy request with no token parameter. -/
theorem C8_witness :
    (authDenied none none = false ∧ jsFalsy (none : Option String) = true) ∧
    ((handlePriceRequest ⟨List.replicate 64 0, none, none⟩ ⟨none, none⟩
      (.thrown "x") 0).1 =
      ⟨400, "\x7b\"error\":\"Token parameter is required\"\x7d"⟩ ∧
    (∀ (req' : OracleRequest), authDenied none req'.trustedClientKey = true →
      (handlePriceRequest ⟨List.replicate 64 0, none, none⟩ req'
        (.thrown "x") 0).1.status = 401) ∧
    (∀ (req₂ : OracleRequest) (st : Nat) (usdOf : String → Option ℚ)
        (token : String),
      authDenied none req₂.trustedClientKey = false →
      req₂.token = some token → token ≠ "" → usdOf token = none →
      (handlePriceRequest ⟨List.replicate 64 0, none, none⟩ req₂
        (.success true st usdOf) 0).1.status = 500 ∧
      (handlePriceRequest ⟨List.replicate 64 0, none, none⟩ req₂
        (.success true st usdOf) 0).1.status ≠
        (handlePriceRequest ⟨List.replicate 64 0, none, none⟩ ⟨none, none⟩
          (.thrown "x") 0).1.status)) :=
  ⟨⟨rfl, rfl⟩, C8_missing_token ⟨List.replicate 64 0, none, none⟩ ⟨none, none⟩
    (.thrown "x") 0 rfl rfl⟩

/-- C9 witness: a token containing URL metacharacters is passed through
unescaped into the upstream query string. -/
theorem C9_witness :
    ("a&b=c" ≠ "") ∧
    ((handlePriceRequest ⟨List.replicate 64 0, none, none⟩ ⟨none, some "a&b=c"⟩
      (.thrown "boom") 0).2.head? =
      some (.fetchCall (coingeckoBase ++ "?ids=" ++ "a&b=c" ++
        "&vs_currencies=usd")) ∧
    (∀ u, (none : Option String) = some u → u ≠ "" →
      (handlePriceRequest ⟨List.replicate 64 0, none, none⟩ ⟨none, some "a&b=c"⟩
        (.thrown "boom") 0).2.head? =
        some (.fetchCall (u ++ "?ids=" ++ "a&b=c" ++ "&vs_currencies=usd"))) ∧
    ((none : Option String) = none ∨ (none : Option String) = some "" →
      (handlePriceRequest ⟨List.replicate 64 0, none, none⟩ ⟨none, some "a&b=c"⟩
        (.thrown "boom") 0).2.head? =
        some (.fetchCall (coingeckoBase ++ "?ids=" ++ "a&b=c" ++
          "&vs_currencies=usd")))) :=
  ⟨by decide, C9_upstream_url_verbatim ⟨List.replicate 64 0, none, none⟩
    ⟨none, some "a&b=c"⟩ (.thrown "boom") 0 "a&b=c" rfl rfl (by decide)⟩

/-- C10 witness: with the trusted key omitted, only the token parameter is
sent. -/
theorem C10_witness :
    jsTruthy (none : Option String) = false ∧
    ((jsTruthy (none : Option String) = false →
      fetchSignedPriceParams "solana" none = [("token", "solana")] ∧
      (∀ v, ("trustedClientKey", v) ∉ fetchSignedPriceParams "solana" none) ∧
      ∀ baseUrl, fetchSignedPriceUrl baseUrl "solana" none =
        baseUrl ++ "?" ++ urlencodeParams [("token", "solana")]) ∧
    (jsTruthy (none : Option String) = true →
      fetchSignedPriceParams "solana" none =
        [("token", "solana"), ("trustedClientKey", (none : Option String).getD "")] ∧
      ∀ baseUrl, fetchSignedPriceUrl baseUrl "solana" none =
        baseUrl ++ "?" ++
          urlencodeParams [("token", "solana"),
            ("trustedClientKey", (none : Option String).getD "")])) :=
  ⟨rfl, C10_client_trusted_key_param "solana" none⟩

end Oracle
